import Mathlib

/-!
Verification of the agent-leaderboard execution/evaluation core.

This file gives a shallow embedding of the Python source under `src/` and
proves properties of it.  Traces are dynamically shaped JSON documents, so we
first model the universe of JSON-decoded Python values (`JsonVal`), Python
truthiness, Python `str()`/`repr()` stringification, and `str.strip()`.

Modelling conventions, used throughout:
* JSON numbers are modelled as integers (`Int`); no claim below depends on
  float values or on Python's cross-type numeric equality (`1 == 1.0`).
* Python `repr` of strings is modelled with single quotes and no escaping;
  no claim below depends on the repr of strings containing quote characters.
* A Python function that can raise is modelled as returning `Except String α`
  (the `String` carries the exception message); a `raise` is `Except.error`.
* `str | None` inputs that are fed to `json.loads` are modelled by
  `TraceInput`: `absent` (Python `None`, and the empty string, both falsy),
  `unparseable` (a string rejected by `json.loads`, carrying the decoder's
  message), and `parsed j` (a string that decodes to the document `j`).
  `json.loads` itself is Python's standard library, outside this repository.
-/

inductive JsonVal where
  | null
  | bool (b : Bool)
  | num (n : Int)
  | str (s : String)
  | arr (items : List JsonVal)
  | obj (entries : List (String × JsonVal))

mutual

def JsonVal.decEq : (a b : JsonVal) → Decidable (a = b)
  | .null, .null => isTrue rfl
  | .null, .bool _ => isFalse (by intro h; cases h)
  | .null, .num _ => isFalse (by intro h; cases h)
  | .null, .str _ => isFalse (by intro h; cases h)
  | .null, .arr _ => isFalse (by intro h; cases h)
  | .null, .obj _ => isFalse (by intro h; cases h)
  | .bool _, .null => isFalse (by intro h; cases h)
  | .bool a, .bool b =>
    if h : a = b then isTrue (by rw [h]) else isFalse (by intro hh; cases hh; exact h rfl)
  | .bool _, .num _ => isFalse (by intro h; cases h)
  | .bool _, .str _ => isFalse (by intro h; cases h)
  | .bool _, .arr _ => isFalse (by intro h; cases h)
  | .bool _, .obj _ => isFalse (by intro h; cases h)
  | .num _, .null => isFalse (by intro h; cases h)
  | .num _, .bool _ => isFalse (by intro h; cases h)
  | .num a, .num b =>
    if h : a = b then isTrue (by rw [h]) else isFalse (by intro hh; cases hh; exact h rfl)
  | .num _, .str _ => isFalse (by intro h; cases h)
  | .num _, .arr _ => isFalse (by intro h; cases h)
  | .num _, .obj _ => isFalse (by intro h; cases h)
  | .str _, .null => isFalse (by intro h; cases h)
  | .str _, .bool _ => isFalse (by intro h; cases h)
  | .str _, .num _ => isFalse (by intro h; cases h)
  | .str a, .str b =>
    if h : a = b then isTrue (by rw [h]) else isFalse (by intro hh; cases hh; exact h rfl)
  | .str _, .arr _ => isFalse (by intro h; cases h)
  | .str _, .obj _ => isFalse (by intro h; cases h)
  | .arr _, .null => isFalse (by intro h; cases h)
  | .arr _, .bool _ => isFalse (by intro h; cases h)
  | .arr _, .num _ => isFalse (by intro h; cases h)
  | .arr _, .str _ => isFalse (by intro h; cases h)
  | .arr a, .arr b =>
    match JsonVal.decEqList a b with
    | isTrue h => isTrue (by rw [h])
    | isFalse h => isFalse (by intro hh; cases hh; exact h rfl)
  | .arr _, .obj _ => isFalse (by intro h; cases h)
  | .obj _, .null => isFalse (by intro h; cases h)
  | .obj _, .bool _ => isFalse (by intro h; cases h)
  | .obj _, .num _ => isFalse (by intro h; cases h)
  | .obj _, .str _ => isFalse (by intro h; cases h)
  | .obj _, .arr _ => isFalse (by intro h; cases h)
  | .obj a, .obj b =>
    match JsonVal.decEqObj a b with
    | isTrue h => isTrue (by rw [h])
    | isFalse h => isFalse (by intro hh; cases hh; exact h rfl)

def JsonVal.decEqList : (a b : List JsonVal) → Decidable (a = b)
  | [], [] => isTrue rfl
  | [], _ :: _ => isFalse (by intro h; cases h)
  | _ :: _, [] => isFalse (by intro h; cases h)
  | x :: xs, y :: ys =>
    match JsonVal.decEq x y with
    | isTrue h1 =>
      match JsonVal.decEqList xs ys with
      | isTrue h2 => isTrue (by rw [h1, h2])
      | isFalse h2 => isFalse (by intro hh; cases hh; exact h2 rfl)
    | isFalse h1 => isFalse (by intro hh; cases hh; exact h1 rfl)

def JsonVal.decEqObj : (a b : List (String × JsonVal)) → Decidable (a = b)
  | [], [] => isTrue rfl
  | [], _ :: _ => isFalse (by intro h; cases h)
  | _ :: _, [] => isFalse (by intro h; cases h)
  | (k1, v1) :: xs, (k2, v2) :: ys =>
    if hk : k1 = k2 then
      match JsonVal.decEq v1 v2 with
      | isTrue h1 =>
        match JsonVal.decEqObj xs ys with
        | isTrue h2 => isTrue (by rw [hk, h1, h2])
        | isFalse h2 => isFalse (by intro hh; cases hh; exact h2 rfl)
      | isFalse h1 => isFalse (by intro hh; cases hh; exact h1 rfl)
    else isFalse (by intro hh; cases hh; exact hk rfl)

end

instance : DecidableEq JsonVal := JsonVal.decEq

instance {ε α : Type} [DecidableEq ε] [DecidableEq α] : DecidableEq (Except ε α)
  | .error a, .error b =>
    if h : a = b then isTrue (by rw [h]) else isFalse (by intro hh; cases hh; exact h rfl)
  | .error _, .ok _ => isFalse (by intro h; cases h)
  | .ok _, .error _ => isFalse (by intro h; cases h)
  | .ok a, .ok b =>
    if h : a = b then isTrue (by rw [h]) else isFalse (by intro hh; cases hh; exact h rfl)

/-- Truthiness of a JSON-decoded Python value (`if x:`). -/
def JsonVal.truthy : JsonVal → Bool
  | .null => false
  | .bool b => b
  | .num n => n != 0
  | .str s => s ≠ ""
  | .arr items => items ≠ []
  | .obj entries => entries ≠ []

mutual

/-- Python `repr()` of a JSON-decoded value (string escaping simplified). -/
def JsonVal.pyRepr : JsonVal → String
  | .null => "None"
  | .bool b => if b then "True" else "False"
  | .num n => toString n
  | .str s => "'" ++ s ++ "'"
  | .arr items => "[" ++ JsonVal.pyReprList items ++ "]"
  | .obj entries => "\x7b" ++ JsonVal.pyReprObj entries ++ "\x7d"

def JsonVal.pyReprList : List JsonVal → String
  | [] => ""
  | [x] => JsonVal.pyRepr x
  | x :: y :: rest => JsonVal.pyRepr x ++ ", " ++ JsonVal.pyReprList (y :: rest)

def JsonVal.pyReprObj : List (String × JsonVal) → String
  | [] => ""
  | [(k, v)] => "'" ++ k ++ "': " ++ JsonVal.pyRepr v
  | (k, v) :: e :: rest =>
    "'" ++ k ++ "': " ++ JsonVal.pyRepr v ++ ", " ++ JsonVal.pyReprObj (e :: rest)

end

/-- Python `str()` of a JSON-decoded value: the bare text for strings,
`repr`-style rendering otherwise. -/
def JsonVal.pyStr : JsonVal → String
  | .str s => s
  | v => JsonVal.pyRepr v

/-- Python `dict.get(key, default)` on an object; any other value has no keys.
Object entries model a parsed Python dict, so keys are assumed unique; the
first match is returned. -/
def JsonVal.getD (v : JsonVal) (key : String) (default : JsonVal) : JsonVal :=
  match v with
  | .obj entries =>
    match entries.find? (fun e => e.1 = key) with
    | some e => e.2
    | none => default
  | _ => default

/-- Python `key in dict` membership test on an object. -/
def JsonVal.hasKey (v : JsonVal) (key : String) : Bool :=
  match v with
  | .obj entries => entries.any (fun e => e.1 = key)
  | _ => false

def JsonVal.isObj : JsonVal → Bool
  | .obj _ => true
  | _ => false

def JsonVal.isArr : JsonVal → Bool
  | .arr _ => true
  | _ => false

/-- Whitespace for Python `str.strip()` and the regex class `\s`. -/
def isPySpace (c : Char) : Bool :=
  c = ' ' || c = '\t' || c = '\n' || c = '\r' || c = '\x0b' || c = '\x0c'

/-- Python `str.strip()` with no arguments. -/
def pyStrip (s : String) : String :=
  String.mk (((s.toList.dropWhile isPySpace).reverse.dropWhile isPySpace).reverse)

/-- ASCII decimal digit, modelling the regex class `\d` on the ASCII range. -/
def isDigitChar (c : Char) : Bool := '0' ≤ c && c ≤ '9'

/-- Regex word character `\w` on the ASCII range, as used by `\b`. -/
def isWordChar (c : Char) : Bool :=
  ('a' ≤ c && c ≤ 'z') || ('A' ≤ c && c ≤ 'Z') || isDigitChar c || c = '_'

/-- Model of a `str | None` value that the source feeds to `json.loads`
(see the module comment). -/
inductive TraceInput where
  | absent
  | unparseable (err : String)
  | parsed (j : JsonVal)
deriving DecidableEq

/-!
Timeout wrapper, `src/src/execution/timeout.py` (`with_timeout`).

An in-flight asynchronous operation is modelled by the instant at which it
would complete and the Python value it would produce.  `with_timeout` awaits
it under `asyncio.wait_for`: if the operation completes strictly before the
deadline its value is returned, otherwise the raised `TimeoutError` is caught
and the Python value `None` is returned (the code's `return None`).  The
function is total: no timeout exception escapes.  An operation that itself
raises is outside this model (`with_timeout` does not catch such errors).
-/

structure AsyncOp where
  time : ℚ
  value : JsonVal
deriving DecidableEq

def with_timeout (op : AsyncOp) (timeout_seconds : ℚ) : JsonVal :=
  if op.time < timeout_seconds then op.value else JsonVal.null

/-!
Execution model, `src/shared/src/models/execution.py` and
`src/src/execution/executor.py` (`execute_single_agent`,
`execute_multi_agent`).

`AgentExecution` keeps the fields the claims touch; the wall-clock fields
(`started_at`, `completed_at`, `duration_seconds`) are set from an external
clock and are not modelled.  An agent instance is modelled by the behaviour
of `agent.run(prompt)` on the one prompt of the batch (`RunOutcome`): the
instant it finishes and either its result (the `model_dump`ed message list
plus optional `usage().total_tokens`) or the exception it raises.
`execute_single_agent` stores `json.dumps(messages_data)`; since dumping a
JSON document and re-loading it is the identity, the stored trace is
modelled directly as `TraceInput.parsed`.
-/

inductive ExecutionStatus where
  | running
  | completed
  | failed
  | timeout
deriving DecidableEq

structure ModelConfig where
  provider : String
  model : String
deriving DecidableEq

structure AgentExecution where
  id : Option Int
  task_id : Int
  model_provider : String
  model_name : String
  status : ExecutionStatus
  token_count : Option Int
  all_messages_json : TraceInput
deriving DecidableEq

inductive RunOutcome where
  | returns (time : ℚ) (messages : JsonVal) (total_tokens : Option Int)
  | raises (time : ℚ) (err : String)
deriving DecidableEq

/-- When `agent.run` finishes (the instant that races the deadline). -/
def RunOutcome.time : RunOutcome → ℚ
  | .returns t _ _ => t
  | .raises t _ => t

/-- Model of `execute_single_agent`: the execution starts `running`, the agent
is awaited through `with_timeout`, and the record transitions exactly once:
to `timeout` with an absent trace when the deadline elapses first, to
`completed` with the dumped message list (and opportunistic token count) on a
result, and to `failed` with the `{"error": str(e)}` marker trace when the
agent raises before the deadline.  No exception escapes. -/
def execute_single_agent (agent : RunOutcome) (model_config : ModelConfig)
    (task_id : Int) (timeout_seconds : ℚ) : AgentExecution :=
  match agent with
  | .returns t messages total_tokens =>
    if t < timeout_seconds then
      { id := none, task_id := task_id, model_provider := model_config.provider,
        model_name := model_config.model, status := ExecutionStatus.completed,
        token_count := total_tokens, all_messages_json := TraceInput.parsed messages }
    else
      { id := none, task_id := task_id, model_provider := model_config.provider,
        model_name := model_config.model, status := ExecutionStatus.timeout,
        token_count := none, all_messages_json := TraceInput.absent }
  | .raises t err =>
    if t < timeout_seconds then
      { id := none, task_id := task_id, model_provider := model_config.provider,
        model_name := model_config.model, status := ExecutionStatus.failed,
        token_count := none,
        all_messages_json := TraceInput.parsed (JsonVal.obj [("error", JsonVal.str err)]) }
    else
      { id := none, task_id := task_id, model_provider := model_config.provider,
        model_name := model_config.model, status := ExecutionStatus.timeout,
        token_count := none, all_messages_json := TraceInput.absent }

/-- Model of `execute_multi_agent`: a length mismatch between the agent list
and the config list raises `ValueError` before any execution is created;
otherwise all agents run concurrently and `asyncio.gather` returns their
results in task-list order, i.e. the order of the zipped input lists. -/
def execute_multi_agent (agents : List RunOutcome) (model_configs : List ModelConfig)
    (task_id : Int) (timeout_seconds : ℚ) : Except String (List AgentExecution) :=
  if agents.length ≠ model_configs.length then
    Except.error ("Agents count (" ++ toString agents.length ++
      ") must match model configs count (" ++ toString model_configs.length ++ ")")
  else
    Except.ok (List.zipWith
      (fun agent config => execute_single_agent agent config task_id timeout_seconds)
      agents model_configs)

/-!
Trace parser, `src/shared/src/execution/evaluator.py`
(`extract_agent_response(messages_json)`).

The function walks the parsed message list twice: first collecting the
`content` of every part of every `kind == "response"` message whose
`part_kind` is neither `tool-call` nor `tool-return` (and whose content is
truthy), joining the collected values with `" ".join(...)`; then, when that
yields the empty string and the message list is non-empty, synthesizing a
fallback from the tool activity found anywhere in the trace.  Note that
`" ".join` raises `TypeError` when a collected content value is not a
string; that raise is modelled by `Except.error`.
-/

/-- Python `sep.join(items)` on a list of strings. -/
def pyJoinWith (sep : String) : List String → String
  | [] => ""
  | [x] => x
  | x :: y :: rest => x ++ sep ++ pyJoinWith sep (y :: rest)

namespace Evaluator

/-- Contents collected by the first pass (the `response_parts` list). -/
def responseParts (messages : List JsonVal) : List JsonVal :=
  messages.flatMap fun message =>
    if message.isObj then
      if message.getD "kind" JsonVal.null = JsonVal.str "response" then
        match message.getD "parts" (JsonVal.arr []) with
        | JsonVal.arr parts =>
          parts.flatMap fun part =>
            if part.isObj then
              let part_kind := part.getD "part_kind" (JsonVal.str "")
              let content := part.getD "content" (JsonVal.str "")
              if content.truthy && part_kind ≠ JsonVal.str "tool-call" &&
                  part_kind ≠ JsonVal.str "tool-return" then
                [content]
              else []
            else []
        | _ => []
      else []
    else []

/-- Python `" ".join(values)`: succeeds only when every element is a string,
otherwise `TypeError`. -/
def pyJoinSpace (values : List JsonVal) : Except String String :=
  if values.all (fun v => match v with | JsonVal.str _ => true | _ => false) then
    Except.ok (pyJoinWith " " (values.map JsonVal.pyStr))
  else
    Except.error "TypeError: sequence item: expected str instance"

/-- Items of the tool-based fallback (the `tool_info` list): every
`tool-call` part anywhere in the trace contributes `Called <tool_name>`, and
every `tool-return` part with truthy content contributes
`Result: <content>`, in document order. -/
def toolInfo (messages : List JsonVal) : List String :=
  messages.flatMap fun message =>
    if message.isObj then
      match message.getD "parts" (JsonVal.arr []) with
      | JsonVal.arr parts =>
        parts.flatMap fun part =>
          if part.isObj then
            if part.getD "part_kind" JsonVal.null = JsonVal.str "tool-call" then
              ["Called " ++ (part.getD "tool_name" (JsonVal.str "unknown tool")).pyStr]
            else if part.getD "part_kind" JsonVal.null = JsonVal.str "tool-return" then
              let tool_content := part.getD "content" (JsonVal.str "")
              if tool_content.truthy then ["Result: " ++ tool_content.pyStr] else []
            else []
          else []
      | _ => []
    else []

/-- Presence of at least one tool invocation (a `tool-call` part) anywhere
in the trace. -/
def hasToolCall (messages : List JsonVal) : Bool :=
  messages.any fun m =>
    m.isObj &&
      (match m.getD "parts" (JsonVal.arr []) with
       | JsonVal.arr parts =>
         parts.any fun p =>
           p.isObj && (p.getD "part_kind" JsonVal.null = JsonVal.str "tool-call")
       | _ => false)

/-- Model of the shared `extract_agent_response`: absent or falsy input and
undecodable input yield the empty string without raising; a decoded document
that is not a list yields the empty string; otherwise the response text is
assembled, falling back to the tool-activity synthesis when it is empty. -/
def extract_agent_response (messages_json : TraceInput) : Except String String :=
  match messages_json with
  | TraceInput.absent => Except.ok ""
  | TraceInput.unparseable _ => Except.ok ""
  | TraceInput.parsed j =>
    match j with
    | JsonVal.arr messages =>
      match pyJoinSpace (responseParts messages) with
      | Except.error e => Except.error e
      | Except.ok joined =>
        let result := pyStrip joined
        if result = "" ∧ messages ≠ [] then
          let tool_info := toolInfo messages
          if tool_info ≠ [] then
            Except.ok (pyStrip (pyJoinWith " " tool_info))
          else
            Except.ok result
        else
          Except.ok result
    | _ => Except.ok ""

end Evaluator

/-!
Executor-module variant of the answer extraction,
`src/src/execution/executor.py` (`extract_agent_response(execution)`).

Unlike the shared parser this variant raises `ValueError` on an absent trace
and on a trace that `json.loads` rejects, returns the `Error: ...` surface
string for the failed-path `{"error": ...}` marker, raises when the decoded
document is not a non-empty list, and otherwise scans the messages in
reverse for an assistant-side text response.
-/

namespace Executor

/-- Reverse scan of the message list (the `for msg in reversed(messages)`
loop): the first assistant-side message with non-blank string content
returns that content stripped; structured dict content returns its `text`
entry (stringified, stripped) when present, else the stringified dict. -/
def findAssistantText : List JsonVal → Option String
  | [] => none
  | msg :: rest =>
    if msg.isObj then
      let role := msg.getD "role" (JsonVal.str "")
      if role = JsonVal.str "assistant" ∨ role = JsonVal.str "model-text-response" ∨
          role = JsonVal.str "model-structured-response" then
        match msg.getD "content" (JsonVal.str "") with
        | JsonVal.str s =>
          if pyStrip s ≠ "" then some (pyStrip s) else findAssistantText rest
        | JsonVal.obj entries =>
          if (JsonVal.obj entries).hasKey "text" then
            some (pyStrip ((JsonVal.obj entries).getD "text" JsonVal.null).pyStr)
          else
            some (pyStrip (JsonVal.obj entries).pyRepr)
        | _ => findAssistantText rest
      else findAssistantText rest
    else findAssistantText rest

/-- Rendering of `f"{execution.status}"` for the no-response fallback
message; the exact text depends on the Python version's `Enum.__format__`
and no claim depends on it. -/
def statusStr : ExecutionStatus → String
  | ExecutionStatus.running => "ExecutionStatus.RUNNING"
  | ExecutionStatus.completed => "ExecutionStatus.COMPLETED"
  | ExecutionStatus.failed => "ExecutionStatus.FAILED"
  | ExecutionStatus.timeout => "ExecutionStatus.TIMEOUT"

/-- Model of the executor-module `extract_agent_response`. -/
def extract_agent_response (execution : AgentExecution) : Except String String :=
  match execution.all_messages_json with
  | TraceInput.absent => Except.error "Execution has no messages (possibly timed out)"
  | TraceInput.unparseable e => Except.error ("Failed to parse messages JSON: " ++ e)
  | TraceInput.parsed j =>
    if j.isObj ∧ j.hasKey "error" then
      Except.ok ("Error: " ++ (j.getD "error" JsonVal.null).pyStr)
    else
      match j with
      | JsonVal.arr messages =>
        if messages = [] then Except.error "No messages found in execution"
        else
          match findAssistantText messages.reverse with
          | some s => Except.ok s
          | none => Except.ok ("No response found. Status: " ++ statusStr execution.status)
      | _ => Except.error "No messages found in execution"

end Executor

/-!
Tool-call hierarchy builder, `src/src/execution/executor.py`
(`extract_tool_hierarchy`).

The code scans the decoded message list collecting `role == "tool_call"`
entries into an insertion-ordered dict keyed by truthy `call_id` (later
entries with an equal key overwrite the stored info but keep the original
position), and `role == "tool_response"` contents into a second dict.  It
then creates one node per call, appends to the root list exactly the nodes
whose stored `parent_id` is falsy, and finally appends every node whose
truthy `parent_id` is a known key to that parent's `children` list, in
dict order.  Since the node objects are shared references, the returned
roots carry the fully linked children.  In this embedding the linked tree
reachable from each root is materialized with a fuel argument; parent links
reachable from a root form strictly descending chains of distinct keys, so
a fuel of `calls.length` reproduces the Python structure exactly (a cycle
among dangling nodes is unreachable from any root).
-/

namespace Executor

structure CallInfo where
  tool_name : JsonVal
  args : JsonVal
  call_id : JsonVal
  parent_id : JsonVal
deriving DecidableEq

/-- Insertion-ordered dict update `d[k] = v`: overwrite in place when the
key is present, else append. -/
def dictSet {α : Type} (d : List (JsonVal × α)) (k : JsonVal) (v : α) :
    List (JsonVal × α) :=
  match d with
  | [] => [(k, v)]
  | (k0, v0) :: rest =>
    if k0 = k then (k0, v) :: rest else (k0, v0) :: dictSet rest k v

/-- Dict lookup `d.get(k, default)`. -/
def dictGetD {α : Type} (d : List (JsonVal × α)) (k : JsonVal) (default : α) : α :=
  match d.find? (fun e => e.1 = k) with
  | some e => e.2
  | none => default

/-- One step of the first scan over the messages: a dict message with role
`tool_call` and truthy `call_id` is recorded in the `tool_calls` dict. -/
def toolCallStep (acc : List (JsonVal × CallInfo)) (msg : JsonVal) :
    List (JsonVal × CallInfo) :=
  if msg.isObj then
    if msg.getD "role" (JsonVal.str "") = JsonVal.str "tool_call" then
      let call_id := msg.getD "call_id" (JsonVal.str "")
      if call_id.truthy then
        dictSet acc call_id
          { tool_name := msg.getD "tool_name" (JsonVal.str "unknown"),
            args := msg.getD "args" (JsonVal.obj []),
            call_id := call_id,
            parent_id := msg.getD "parent_id" JsonVal.null }
      else acc
    else acc
  else acc

/-- First scan: the `tool_calls` dict, keyed by truthy `call_id`. -/
def collectToolCalls (messages : List JsonVal) : List (JsonVal × CallInfo) :=
  messages.foldl toolCallStep []

/-- One step of the first scan for `tool_response` messages. -/
def toolResponseStep (acc : List (JsonVal × JsonVal)) (msg : JsonVal) :
    List (JsonVal × JsonVal) :=
  if msg.isObj then
    if msg.getD "role" (JsonVal.str "") = JsonVal.str "tool_response" then
      let call_id := msg.getD "call_id" (JsonVal.str "")
      if call_id.truthy then
        dictSet acc call_id (msg.getD "content" (JsonVal.obj []))
      else acc
    else acc
  else acc

/-- First scan: the `tool_responses` dict, keyed by truthy `call_id`. -/
def collectToolResponses (messages : List JsonVal) : List (JsonVal × JsonVal) :=
  messages.foldl toolResponseStep []

inductive ToolCallNode where
  | mk (tool_name : JsonVal) (args : JsonVal) (result : JsonVal)
      (call_id : JsonVal) (children : List ToolCallNode)

def ToolCallNode.tool_name : ToolCallNode → JsonVal
  | .mk t _ _ _ _ => t

def ToolCallNode.args : ToolCallNode → JsonVal
  | .mk _ a _ _ _ => a

def ToolCallNode.result : ToolCallNode → JsonVal
  | .mk _ _ r _ _ => r

def ToolCallNode.call_id : ToolCallNode → JsonVal
  | .mk _ _ _ c _ => c

def ToolCallNode.children : ToolCallNode → List ToolCallNode
  | .mk _ _ _ _ cs => cs

mutual

def ToolCallNode.decEqNode : (a b : ToolCallNode) → Decidable (a = b)
  | .mk t1 a1 r1 c1 ch1, .mk t2 a2 r2 c2 ch2 =>
    if ht : t1 = t2 then
      if ha : a1 = a2 then
        if hr : r1 = r2 then
          if hc : c1 = c2 then
            match ToolCallNode.decEqForest ch1 ch2 with
            | isTrue hch => isTrue (by rw [ht, ha, hr, hc, hch])
            | isFalse hch => isFalse (by intro hh; cases hh; exact hch rfl)
          else isFalse (by intro hh; cases hh; exact hc rfl)
        else isFalse (by intro hh; cases hh; exact hr rfl)
      else isFalse (by intro hh; cases hh; exact ha rfl)
    else isFalse (by intro hh; cases hh; exact ht rfl)

def ToolCallNode.decEqForest : (a b : List ToolCallNode) → Decidable (a = b)
  | [], [] => isTrue rfl
  | [], _ :: _ => isFalse (by intro h; cases h)
  | _ :: _, [] => isFalse (by intro h; cases h)
  | x :: xs, y :: ys =>
    match ToolCallNode.decEqNode x y with
    | isTrue h1 =>
      match ToolCallNode.decEqForest xs ys with
      | isTrue h2 => isTrue (by rw [h1, h2])
      | isFalse h2 => isFalse (by intro hh; cases hh; exact h2 rfl)
    | isFalse h1 => isFalse (by intro hh; cases hh; exact h1 rfl)

end

instance : DecidableEq ToolCallNode := ToolCallNode.decEqNode

/-- Entries linked as children of the node whose dict key is `key`: exactly
the calls whose stored `parent_id` is truthy and equal to that key, in dict
order (the iteration order of the linking loop). -/
def childEntries (calls : List (JsonVal × CallInfo)) (key : JsonVal) :
    List (JsonVal × CallInfo) :=
  calls.filter (fun e => e.2.parent_id.truthy && e.2.parent_id = key)

/-- Materialization of the node for one dict entry, following child links
down to the given depth. -/
def buildNode (calls : List (JsonVal × CallInfo))
    (responses : List (JsonVal × JsonVal)) :
    Nat → (JsonVal × CallInfo) → ToolCallNode
  | 0, e =>
    ToolCallNode.mk e.2.tool_name e.2.args (dictGetD responses e.1 (JsonVal.obj []))
      e.1 []
  | fuel + 1, e =>
    ToolCallNode.mk e.2.tool_name e.2.args (dictGetD responses e.1 (JsonVal.obj []))
      e.1 ((childEntries calls e.1).map (buildNode calls responses fuel))

/-- Model of `extract_tool_hierarchy`: an absent trace yields `[]`; a trace
rejected by `json.loads` raises `ValueError`; a decoded document that is
not a list (e.g. the failed-path error dict) yields `[]`; otherwise the
root list holds, in dict order, one linked node per call whose stored
`parent_id` is falsy. -/
def extract_tool_hierarchy (execution : AgentExecution) :
    Except String (List ToolCallNode) :=
  match execution.all_messages_json with
  | TraceInput.absent => Except.ok []
  | TraceInput.unparseable e => Except.error ("Failed to parse messages JSON: " ++ e)
  | TraceInput.parsed j =>
    match j with
    | JsonVal.arr messages =>
      let calls := collectToolCalls messages
      let responses := collectToolResponses messages
      Except.ok
        ((calls.filter (fun e => !e.2.parent_id.truthy)).map
          (buildNode calls responses calls.length))
    | _ => Except.ok []

mutual

/-- Every `call_id` appearing anywhere in a materialized tree. -/
def ToolCallNode.allIds : ToolCallNode → List JsonVal
  | .mk _ _ _ c children => c :: ToolCallNode.forestIds children

def ToolCallNode.forestIds : List ToolCallNode → List JsonVal
  | [] => []
  | n :: ns => ToolCallNode.allIds n ++ ToolCallNode.forestIds ns

end

end Executor

/-!
Evaluation-agent response parsing, `src/src/agents/eval_agent.py`
(`extract_score`, `extract_explanation`, `parse_evaluation_response`,
`format_evaluation_prompt`) and the evaluation domain model,
`src/src/models/evaluation.py` (`EvaluationResult`).

The regular expressions are modelled exactly on the ASCII range:
`Score:\s*(\d+)` (IGNORECASE) is a leftmost search for the literal
`score:` (case folded), then a greedy whitespace run, then a non-empty
greedy digit run — backtracking into `\s*` cannot help since whitespace is
never a digit, so the maximal-munch model is exact.  The fallback
`\b(\d+)\b` matches exactly the maximal digit runs whose two neighbours
are absent or non-word characters.
-/

/-- Case-insensitive anchored match of a (lowercase) pattern; returns the
remaining input on success. -/
def matchCI : List Char → List Char → Option (List Char)
  | [], cs => some cs
  | _ :: _, [] => none
  | p :: ps, c :: cs => if c.toLower = p then matchCI ps cs else none

def scoreColon : List Char := ['s', 'c', 'o', 'r', 'e', ':']

def explColon : List Char :=
  ['e', 'x', 'p', 'l', 'a', 'n', 'a', 't', 'i', 'o', 'n', ':']

/-- Numeric value of a digit run (Python `int` of the matched group). -/
def digitsVal (ds : List Char) : Nat :=
  ds.foldl (fun a c => a * 10 + (c.toNat - '0'.toNat)) 0

/-- Leftmost match of `Score:\s*(\d+)` (IGNORECASE): the value of the first
`score:` marker that is followed (after optional whitespace) by at least
one digit. -/
def scoreMarkerSearch : List Char → Option Nat
  | [] => none
  | c :: rest =>
    match matchCI scoreColon (c :: rest) with
    | some after =>
      let ds := (after.dropWhile isPySpace).takeWhile isDigitChar
      if ds ≠ [] then some (digitsVal ds) else scoreMarkerSearch rest
    | none => scoreMarkerSearch rest

def prevIsWord (prev : Option Char) : Bool :=
  match prev with
  | some p => isWordChar p
  | none => false

/-- Single pass computing `re.findall(r"\b(\d+)\b", text)` values: a digit
run is opened only after a string start or a non-word character, extended
while digits last (its digits accumulate in reverse in `pending`), emitted
at a following non-word character or at the string end, and discarded when
a word character follows it (no trailing `\b`). -/
def scanNumsGo (pending : Option (List Char)) (prev : Option Char) :
    List Char → List Nat
  | [] =>
    match pending with
    | some ds => [digitsVal ds.reverse]
    | none => []
  | c :: cs =>
    match pending with
    | some ds =>
      if isDigitChar c then scanNumsGo (some (c :: ds)) (some c) cs
      else if isWordChar c then scanNumsGo none (some c) cs
      else digitsVal ds.reverse :: scanNumsGo none (some c) cs
    | none =>
      if isDigitChar c && !prevIsWord prev then scanNumsGo (some [c]) (some c) cs
      else scanNumsGo none (some c) cs

/-- Values of `re.findall(r"\b(\d+)\b", text)` converted by `int`, in text
order: the maximal digit runs flanked by string ends or non-word
characters.  `prev` is the character just before the scanned suffix. -/
def scanNums (prev : Option Char) (cs : List Char) : List Nat :=
  scanNumsGo none prev cs

/-- Model of `extract_score`: the explicit marker wins and, when out of
range, fails hard; only with no marker anywhere does the standalone-integer
fallback apply; with no in-range candidate at all the error carries the
first 100 characters of the response. -/
def extract_score (text : String) : Except String Nat :=
  match scoreMarkerSearch text.toList with
  | some score =>
    if score ≤ 100 then Except.ok score
    else Except.error ("Score " ++ toString score ++ " is out of range (0-100)")
  | none =>
    match (scanNums none text.toList).find? (fun n => n ≤ 100) with
    | some n => Except.ok n
    | none =>
      Except.error ("Could not extract valid score from text: " ++ text.take 100)

/-- Leftmost case-insensitive occurrence of a pattern; returns the input
remaining after it. -/
def ciFindRest (pat : List Char) : List Char → Option (List Char)
  | [] => matchCI pat []
  | c :: cs =>
    match matchCI pat (c :: cs) with
    | some r => some r
    | none => ciFindRest pat cs

/-- Leftmost match of `Score:\s*\d+\s*(.+)` (IGNORECASE, DOTALL), returning
a list whose `pyStrip` equals the stripped matched group: when text follows
the digit run the group is that text up to leading whitespace (stripping
makes the difference vanish); when the digit run ends the string, regex
backtracking shortens `\d+` so the group is the last digit — possible only
when the run has at least two digits, otherwise the position fails and the
search continues. -/
def scoreTailSearch : List Char → Option (List Char)
  | [] => none
  | c :: rest =>
    match matchCI scoreColon (c :: rest) with
    | some after =>
      let afterWs := after.dropWhile isPySpace
      let ds := afterWs.takeWhile isDigitChar
      let beyond := afterWs.dropWhile isDigitChar
      if ds = [] then scoreTailSearch rest
      else
        match beyond with
        | [] =>
          if 2 ≤ ds.length then some [ds.getLastD c] else scoreTailSearch rest
        | _ :: _ => some beyond
    | none => scoreTailSearch rest

/-- Last-resort branch of `extract_explanation`: the whole response text,
stripped, or the named extraction error. -/
def explanationLastResort (text : String) : Except String String :=
  if pyStrip text ≠ "" then Except.ok (pyStrip text)
  else Except.error "Could not extract explanation from response"

/-- Model of `extract_explanation` and its layered fallbacks: text after an
explicit `Explanation:` marker, else text after the score marker, else the
entire response stripped, else a named error.  A matched group that strips
to the empty string falls through to the next layer exactly as in the
source (`if explanation:`). -/
def extract_explanation (text : String) : Except String String :=
  match ciFindRest explColon text.toList with
  | some rest =>
    if pyStrip (String.mk rest) ≠ "" then Except.ok (pyStrip (String.mk rest))
    else
      match scoreTailSearch text.toList with
      | some g =>
        if pyStrip (String.mk g) ≠ "" then Except.ok (pyStrip (String.mk g))
        else explanationLastResort text
      | none => explanationLastResort text
  | none =>
    match scoreTailSearch text.toList with
    | some g =>
      if pyStrip (String.mk g) ≠ "" then Except.ok (pyStrip (String.mk g))
      else explanationLastResort text
    | none => explanationLastResort text

/-- Evaluation verdict domain model; `id` and `evaluated_at` (storage key
and wall-clock stamp) are not modelled. -/
structure EvaluationResult where
  execution_id : Int
  score : Int
  explanation : String
deriving DecidableEq

/-- Pydantic construction of `EvaluationResult`: the `score` field carries
`ge=0, le=100`, the `explanation` field carries `min_length=1`, and
`model_post_init` rejects an explanation that is empty after trimming.
Field validation runs before post-init, as in pydantic. -/
def mkEvaluationResult (execution_id : Int) (score : Int) (explanation : String) :
    Except String EvaluationResult :=
  if score < 0 ∨ 100 < score then
    Except.error "ValidationError: score must be in the interval [0, 100]"
  else if explanation.length < 1 then
    Except.error "ValidationError: explanation must have at least 1 character"
  else if pyStrip explanation = "" then
    Except.error "Explanation must not be empty after trimming whitespace"
  else
    Except.ok { execution_id := execution_id, score := score, explanation := explanation }

/-- Model of `parse_evaluation_response`. -/
def parse_evaluation_response (response_text : String) (execution_id : Int) :
    Except String EvaluationResult :=
  match extract_score response_text with
  | Except.error e => Except.error ("Failed to extract score: " ++ e)
  | Except.ok score =>
    match extract_explanation response_text with
    | Except.error e => Except.error ("Failed to extract explanation: " ++ e)
    | Except.ok explanation =>
      mkEvaluationResult execution_id (Int.ofNat score) explanation

def lbraceStr : String := String.mk [Char.ofNat 123]

def rbraceStr : String := String.mk [Char.ofNat 125]

def phTaskPrompt : String := lbraceStr ++ "task_prompt" ++ rbraceStr

def phAgentResponse : String := lbraceStr ++ "agent_response" ++ rbraceStr

def startsWithCS : List Char → List Char → Bool
  | [], _ => true
  | _ :: _, [] => false
  | p :: ps, c :: cs => p = c && startsWithCS ps cs

/-- Python `pat in s` substring test. -/
def containsSub (pat : String) (s : String) : Bool :=
  let rec go : List Char → Bool
    | [] => startsWithCS pat.toList []
    | c :: cs => startsWithCS pat.toList (c :: cs) || go cs
  go s.toList

/-- Model of `format_evaluation_prompt`: defensive re-check of the two
required placeholders, then `str.format` substitution.  Substitution is
modelled by sequential replacement; this coincides with `str.format` for
substituted values free of the other placeholder, and templates containing
further brace fields (which make `str.format` raise) are outside the
model. -/
def format_evaluation_prompt (prompt_template : String) (task_prompt : String)
    (agent_response : String) : Except String String :=
  if !containsSub phTaskPrompt prompt_template then
    Except.error ("Prompt template missing " ++ phTaskPrompt ++ " placeholder")
  else if !containsSub phAgentResponse prompt_template then
    Except.error ("Prompt template missing " ++ phAgentResponse ++ " placeholder")
  else
    Except.ok ((prompt_template.replace phTaskPrompt task_prompt).replace
      phAgentResponse agent_response)

/-!
Evaluation orchestration.

`src/shared/src/execution/evaluator.py` (`evaluate_execution`) runs the
evaluation agent through `with_timeout`; the `None` sentinel is turned into
a raised `TimeoutError` which is re-raised to the caller unchanged, and
every other failure is a `ValueError`.  The evaluation agent is a plain
text-out agent: its behaviour on the one formatted prompt is modelled by
the instant it finishes and the text of `str(result.output)`.

`src/src/execution/executor.py` (`evaluate_execution`) awaits the
evaluation agent directly (no timeout wrapper); a failure of the executor
`extract_agent_response` is caught and replaced by a substitute answer, and
the evaluator is then invoked on the formatted prompt built from it.  The
agent runtime is modelled as a function from the formatted prompt to the
`new_messages()` list; messages lacking a `role` or `content` attribute are
skipped by the source loop and are therefore omitted from the model.
-/

inductive EvalError where
  | timedOut (msg : String)
  | valueError (msg : String)
deriving DecidableEq

namespace Evaluator

/-- Model of the shared `evaluate_execution` (see the section comment). -/
def evaluate_execution (execution_id : Option Int) (eval_agent_time : ℚ)
    (eval_agent_output : String) (timeout_seconds : ℚ) :
    Except EvalError EvaluationResult :=
  if eval_agent_time < timeout_seconds then
    let response_text := eval_agent_output
    if response_text = "" then
      Except.error (EvalError.valueError "No response text found in evaluation agent result")
    else
      match extract_score response_text with
      | Except.error e => Except.error (EvalError.valueError e)
      | Except.ok score =>
        match extract_explanation response_text with
        | Except.error e => Except.error (EvalError.valueError e)
        | Except.ok explanation =>
          match mkEvaluationResult (execution_id.getD 0) (Int.ofNat score) explanation with
          | Except.error e => Except.error (EvalError.valueError e)
          | Except.ok r => Except.ok r
  else
    Except.error (EvalError.timedOut
      ("Evaluation timed out after " ++ toString timeout_seconds ++ " seconds"))

end Evaluator

namespace Executor

/-- One entry of `result.new_messages()` as seen by the executor scan:
its `role` attribute stringified and its `content` attribute. -/
structure EvalMsg where
  role : String
  content : JsonVal
deriving DecidableEq

/-- Scan for the evaluation response text (`for msg in reversed(messages)`,
applied here to the already reversed list): the first assistant-side
message whose content is a string ends the loop with that string, even a
blank one; other messages are skipped. -/
def findResponseText : List EvalMsg → String
  | [] => ""
  | m :: rest =>
    if m.role = "assistant" ∨ m.role = "model-text-response" then
      match m.content with
      | JsonVal.str s => s
      | _ => findResponseText rest
    else findResponseText rest

/-- Tail of the executor `evaluate_execution` from the point where the
evaluation agent has produced its messages. -/
def evaluate_from_response (messages : List EvalMsg) (exec_id : Int) :
    Except String EvaluationResult :=
  let response_text := findResponseText messages.reverse
  if response_text = "" then
    Except.error "No response text found in evaluation agent result"
  else
    parse_evaluation_response response_text exec_id

/-- Model of the executor `evaluate_execution` (see the section comment). -/
def evaluate_execution (execution : AgentExecution) (prompt_template : String)
    (task_prompt : String) (run_eval_agent : String → List EvalMsg) :
    Except String EvaluationResult :=
  match execution.id with
  | none => Except.error "Cannot evaluate execution without database ID"
  | some exec_id =>
    let agent_response :=
      match Executor.extract_agent_response execution with
      | Except.ok s => s
      | Except.error e => "Failed to extract response: " ++ e
    match format_evaluation_prompt prompt_template task_prompt agent_response with
    | Except.error e => Except.error e
    | Except.ok formatted_prompt =>
      evaluate_from_response (run_eval_agent formatted_prompt) exec_id

end Executor

/-!
Concrete fixtures used by witnesses and counterexamples.
-/

def sampleAgentA : RunOutcome := RunOutcome.returns 1 (JsonVal.arr []) (some 10)

def sampleAgentB : RunOutcome := RunOutcome.raises 2 "boom"

def sampleConfigA : ModelConfig := { provider := "openai", model := "gpt-4o" }

def sampleConfigB : ModelConfig := { provider := "anthropic", model := "claude-sonnet-4" }

/-- Execution whose agent timed out: the stored trace is absent. -/
def sampleTimeoutExecution : AgentExecution :=
  { id := some 7, task_id := 1, model_provider := "openai", model_name := "gpt-4o",
    status := ExecutionStatus.timeout, token_count := none,
    all_messages_json := TraceInput.absent }

/-- Execution whose stored trace is a string `json.loads` rejects. -/
def sampleBadJsonExecution : AgentExecution :=
  { id := some 8, task_id := 1, model_provider := "openai", model_name := "gpt-4o",
    status := ExecutionStatus.completed, token_count := none,
    all_messages_json := TraceInput.unparseable "Expecting value: line 1 column 1 (char 0)" }

/-- Trace with a single tool call whose declared parent is unknown. -/
def danglingMessages : List JsonVal :=
  [JsonVal.obj [("role", JsonVal.str "tool_call"),
    ("tool_name", JsonVal.str "child_tool"),
    ("args", JsonVal.obj []),
    ("call_id", JsonVal.str "c2"),
    ("parent_id", JsonVal.str "c1")]]

def danglingExecution : AgentExecution :=
  { id := some 9, task_id := 1, model_provider := "openai", model_name := "gpt-4o",
    status := ExecutionStatus.completed, token_count := none,
    all_messages_json := TraceInput.parsed (JsonVal.arr danglingMessages) }

/-- Trace whose only response content is tool activity (no plain text). -/
def sampleToolMessages : List JsonVal :=
  [JsonVal.obj [("kind", JsonVal.str "response"),
    ("parts", JsonVal.arr
      [JsonVal.obj [("part_kind", JsonVal.str "tool-call"),
        ("tool_name", JsonVal.str "check_prime"),
        ("args", JsonVal.obj [("n", JsonVal.num 17)]),
        ("call_id", JsonVal.str "call_1")],
      JsonVal.obj [("part_kind", JsonVal.str "tool-return"),
        ("content", JsonVal.str "17 is prime"),
        ("call_id", JsonVal.str "call_1")]])]]

/-- Execution whose stored trace is the failed-path error marker dict. -/
def sampleErrorDictExecution : AgentExecution :=
  { id := some 10, task_id := 1, model_provider := "openai", model_name := "gpt-4o",
    status := ExecutionStatus.failed, token_count := none,
    all_messages_json :=
      TraceInput.parsed (JsonVal.obj [("error", JsonVal.str "boom")]) }

/-- Execution whose stored trace decodes to messages without tool calls. -/
def sampleNoToolsExecution : AgentExecution :=
  { id := some 11, task_id := 1, model_provider := "openai", model_name := "gpt-4o",
    status := ExecutionStatus.completed, token_count := none,
    all_messages_json := TraceInput.parsed (JsonVal.arr
      [JsonVal.obj [("role", JsonVal.str "user"), ("content", JsonVal.str "Hello")],
       JsonVal.obj [("role", JsonVal.str "assistant"),
         ("content", JsonVal.str "Hi there!")]]) }

/-- Template built from the two required placeholders. -/
def sampleTemplate : String :=
  "Task: " ++ phTaskPrompt ++ " Answer: " ++ phAgentResponse

/-- Deterministic evaluation-agent stub used by the C10 witness. -/
def sampleEvalAgent : String → List Executor.EvalMsg :=
  fun _ =>
    [Executor.EvalMsg.mk "assistant" (JsonVal.str "Score: 80\nExplanation: reasonable")]

/-!
Claim theorems.
-/

/-- C2, counterexample.  The claim asserts the timeout sentinel is
distinguishable from every legitimate output the wrapped operation could
produce.  `with_timeout` returns the Python value `None` as its sentinel
(the annotation is `T | None`, not an option wrapper), so an operation that
legitimately completes with `None` well before the deadline is
indistinguishable from a timed-out one: both calls below return the same
value. -/
theorem C2_counterexample :
    with_timeout { time := 0, value := JsonVal.null } 1 = JsonVal.null ∧
    with_timeout { time := 2, value := JsonVal.str "late result" } 1 = JsonVal.null ∧
    (0 : ℚ) < 1 ∧ (1 : ℚ) ≤ 2 := by
  refine ⟨?_, ?_, by norm_num, by norm_num⟩
  · simp [with_timeout]
  · rw [with_timeout, if_neg (by norm_num)]

/-- C2 (amended): for every operation and deadline > 0, `with_timeout`
returns the operation's result when it completes before the deadline and
returns the `None` sentinel — without raising a timeout exception (the
model is a total function; the source catches `TimeoutError`) — when the
deadline elapses first; the sentinel is distinguishable from every
legitimate output other than `None` itself. -/
theorem C2_with_timeout_amended (op : AsyncOp) (deadline : ℚ) (_hd : 0 < deadline) :
    (op.time < deadline → with_timeout op deadline = op.value) ∧
    (deadline ≤ op.time → with_timeout op deadline = JsonVal.null) ∧
    (deadline ≤ op.time → ∀ v : JsonVal, v ≠ JsonVal.null →
      with_timeout op deadline ≠ v) := by
  refine ⟨fun h => ?_, fun h => ?_, fun h v hv => ?_⟩
  · rw [with_timeout, if_pos h]
  · rw [with_timeout, if_neg (not_lt.mpr h)]
  · rw [with_timeout, if_neg (not_lt.mpr h)]
    exact fun hh => hv hh.symm

/-- C2 witness: a concrete timed-out operation. -/
theorem C2_with_timeout_amended_witness :
    (0 : ℚ) < 1 ∧
    with_timeout { time := 5, value := JsonVal.str "x" } 1 = JsonVal.null := by
  refine ⟨by norm_num, ?_⟩
  exact (C2_with_timeout_amended { time := 5, value := JsonVal.str "x" } 1
    (by norm_num)).2.1 (by norm_num)

/-- C6: constructing an `EvaluationResult` with a score outside `[0, 100]`
always fails validation, constructing one with an explanation that is empty
after trimming always fails validation, and every successful construction
has its score in `[0, 100]` and a non-empty trimmed explanation. -/
theorem C6_evaluation_result_validation (execution_id score : Int)
    (explanation : String) :
    ((score < 0 ∨ 100 < score) →
      ∃ e, mkEvaluationResult execution_id score explanation = Except.error e) ∧
    (pyStrip explanation = "" →
      ∃ e, mkEvaluationResult execution_id score explanation = Except.error e) ∧
    (∀ r, mkEvaluationResult execution_id score explanation = Except.ok r →
      0 ≤ r.score ∧ r.score ≤ 100 ∧ pyStrip r.explanation ≠ "") := by
  unfold mkEvaluationResult
  refine ⟨fun h => ?_, fun h => ?_, fun r hr => ?_⟩
  · rw [if_pos h]
    exact ⟨_, rfl⟩
  · by_cases h1 : score < 0 ∨ 100 < score
    · rw [if_pos h1]
      exact ⟨_, rfl⟩
    · rw [if_neg h1]
      by_cases h2 : explanation.length < 1
      · rw [if_pos h2]
        exact ⟨_, rfl⟩
      · rw [if_neg h2, if_pos h]
        exact ⟨_, rfl⟩
  · by_cases h1 : score < 0 ∨ 100 < score
    · rw [if_pos h1] at hr
      cases hr
    · rw [if_neg h1] at hr
      by_cases h2 : explanation.length < 1
      · rw [if_pos h2] at hr
        cases hr
      · rw [if_neg h2] at hr
        by_cases h3 : pyStrip explanation = ""
        · rw [if_pos h3] at hr
          cases hr
        · rw [if_neg h3] at hr
          cases hr
          push_neg at h1
          exact ⟨h1.1, h1.2, h3⟩

/-- C6 witness: a valid construction and two rejected ones. -/
theorem C6_evaluation_result_validation_witness :
    (((150 : Int) < 0 ∨ (100 : Int) < 150) ∧
      ∃ e, mkEvaluationResult 1 150 "x" = Except.error e) ∧
    (pyStrip "   " = "" ∧ ∃ e, mkEvaluationResult 1 50 "   " = Except.error e) ∧
    (mkEvaluationResult 1 95 "Great." = Except.ok
        { execution_id := 1, score := 95, explanation := "Great." } ∧
      (0 : Int) ≤ 95 ∧ (95 : Int) ≤ 100 ∧ pyStrip "Great." ≠ "") := by
  refine ⟨⟨by norm_num, ?_⟩, ⟨by decide, ?_⟩, ⟨by decide, ?_⟩⟩
  · exact (C6_evaluation_result_validation 1 150 "x").1 (by norm_num)
  · exact (C6_evaluation_result_validation 1 50 "   ").2.1 (by decide)
  · exact (C6_evaluation_result_validation 1 95 "Great.").2.2
      { execution_id := 1, score := 95, explanation := "Great." } (by decide)

/-- C7: whenever the shared evaluator's bounded wait on the evaluation
agent ends in the timeout sentinel (the deadline elapses at or before the
agent's completion instant), `evaluate_execution` fails with the named
`TimeoutError` and never yields an `EvaluationResult` — in particular never
a score of zero, and never a silent status transition (no execution status
is touched by this function). -/
theorem C7_evaluation_timeout_surfaced (execution_id : Option Int)
    (eval_agent_time : ℚ) (eval_agent_output : String) (timeout_seconds : ℚ)
    (h : timeout_seconds ≤ eval_agent_time) :
    Evaluator.evaluate_execution execution_id eval_agent_time eval_agent_output
        timeout_seconds =
      Except.error (EvalError.timedOut
        ("Evaluation timed out after " ++ toString timeout_seconds ++ " seconds")) ∧
    ∀ r : EvaluationResult,
      Evaluator.evaluate_execution execution_id eval_agent_time eval_agent_output
        timeout_seconds ≠ Except.ok r := by
  unfold Evaluator.evaluate_execution
  rw [if_neg (not_lt.mpr h)]
  exact ⟨rfl, fun r hr => by cases hr⟩

/-- C7 witness: a concrete evaluation that times out at a 30-second
deadline. -/
theorem C7_evaluation_timeout_surfaced_witness :
    (30 : ℚ) ≤ 45 ∧
    Evaluator.evaluate_execution (some 3) 45 "Score: 90" 30 =
      Except.error (EvalError.timedOut
        ("Evaluation timed out after " ++ toString (30 : ℚ) ++ " seconds")) := by
  refine ⟨by norm_num, ?_⟩
  exact (C7_evaluation_timeout_surfaced (some 3) 45 "Score: 90" 30 (by norm_num)).1

/-- C1: `execute_multi_agent` raises `ValueError` — before any execution is
produced — when the agent list and the config list differ in length, and
with equal lengths `N` it returns exactly `N` executions in which element
`i` is the single-agent execution for agent `i` under config `i`,
independent of the finishing instants carried by the other agents (the
result at index `i` depends only on `agents[i]` and `model_configs[i]`). -/
theorem C1_execute_multi_agent (agents : List RunOutcome)
    (model_configs : List ModelConfig) (task_id : Int) (timeout_seconds : ℚ) :
    (agents.length ≠ model_configs.length →
      ∃ e, execute_multi_agent agents model_configs task_id timeout_seconds =
        Except.error e) ∧
    (agents.length = model_configs.length →
      ∃ rs, execute_multi_agent agents model_configs task_id timeout_seconds =
          Except.ok rs ∧
        rs.length = model_configs.length ∧
        ∀ i (hi : i < rs.length) (ha : i < agents.length)
            (hc : i < model_configs.length),
          rs.get ⟨i, hi⟩ =
            execute_single_agent (agents.get ⟨i, ha⟩) (model_configs.get ⟨i, hc⟩)
              task_id timeout_seconds) := by
  constructor
  · intro h
    rw [execute_multi_agent, if_pos h]
    exact ⟨_, rfl⟩
  · intro h
    have hcond : ¬ (agents.length ≠ model_configs.length) := by simp [h]
    refine ⟨List.zipWith
        (fun agent config => execute_single_agent agent config task_id timeout_seconds)
        agents model_configs, ?_, ?_, ?_⟩
    · rw [execute_multi_agent, if_neg hcond]
    · rw [List.length_zipWith, h, min_self]
    · intro i hi ha hc
      simp only [List.get_eq_getElem]
      rw [List.getElem_zipWith]

/-- C1 witness: a two-against-one mismatch fails fast; a matched pair of
two-element lists yields both executions in input order. -/
theorem C1_execute_multi_agent_witness :
    ([sampleAgentA, sampleAgentB].length ≠ [sampleConfigA].length ∧
      ∃ e, execute_multi_agent [sampleAgentA, sampleAgentB] [sampleConfigA] 1 10 =
        Except.error e) ∧
    ([sampleAgentA, sampleAgentB].length = [sampleConfigA, sampleConfigB].length ∧
      ∃ rs, execute_multi_agent [sampleAgentA, sampleAgentB]
          [sampleConfigA, sampleConfigB] 1 10 = Except.ok rs ∧
        rs.length = [sampleConfigA, sampleConfigB].length ∧
        ∀ i (hi : i < rs.length)
            (ha : i < [sampleAgentA, sampleAgentB].length)
            (hc : i < [sampleConfigA, sampleConfigB].length),
          rs.get ⟨i, hi⟩ =
            execute_single_agent ([sampleAgentA, sampleAgentB].get ⟨i, ha⟩)
              ([sampleConfigA, sampleConfigB].get ⟨i, hc⟩) 1 10) := by
  constructor
  · exact ⟨by decide,
      (C1_execute_multi_agent [sampleAgentA, sampleAgentB] [sampleConfigA] 1 10).1
        (by decide)⟩
  · exact ⟨by decide,
      (C1_execute_multi_agent [sampleAgentA, sampleAgentB]
        [sampleConfigA, sampleConfigB] 1 10).2 (by decide)⟩

/-- C3, counterexample.  The claim asserts answer extraction never raises
and yields the empty string on an absent trace; the executor-module
`extract_agent_response` — one of the two implementations the claim covers —
instead raises `ValueError` on the concrete timed-out execution whose trace
is absent. -/
theorem C3_counterexample :
    Executor.extract_agent_response sampleTimeoutExecution =
      Except.error "Execution has no messages (possibly timed out)" := rfl

/-- C3 (amended): the shared trace parser's `extract_agent_response` is
total on the covered cases — an absent (or falsy) trace yields the empty
string and an undecodable trace yields the empty string, never raising —
while the executor-module variant instead raises `ValueError` on an absent
trace and on an undecodable trace. -/
theorem C3_extract_answer_amended (err : String) (ex1 ex2 : AgentExecution)
    (h1 : ex1.all_messages_json = TraceInput.absent)
    (h2 : ex2.all_messages_json = TraceInput.unparseable err) :
    Evaluator.extract_agent_response TraceInput.absent = Except.ok "" ∧
    Evaluator.extract_agent_response (TraceInput.unparseable err) = Except.ok "" ∧
    Executor.extract_agent_response ex1 =
      Except.error "Execution has no messages (possibly timed out)" ∧
    Executor.extract_agent_response ex2 =
      Except.error ("Failed to parse messages JSON: " ++ err) := by
  refine ⟨rfl, rfl, ?_, ?_⟩
  · simp [Executor.extract_agent_response, h1]
  · simp [Executor.extract_agent_response, h2]

/-- C3 witness: the two concrete executions. -/
theorem C3_extract_answer_amended_witness :
    sampleTimeoutExecution.all_messages_json = TraceInput.absent ∧
    sampleBadJsonExecution.all_messages_json =
      TraceInput.unparseable "Expecting value: line 1 column 1 (char 0)" ∧
    Executor.extract_agent_response sampleTimeoutExecution =
      Except.error "Execution has no messages (possibly timed out)" ∧
    Executor.extract_agent_response sampleBadJsonExecution =
      Except.error ("Failed to parse messages JSON: " ++
        "Expecting value: line 1 column 1 (char 0)") := by
  refine ⟨rfl, rfl, ?_, ?_⟩
  · exact (C3_extract_answer_amended "Expecting value: line 1 column 1 (char 0)"
      sampleTimeoutExecution sampleBadJsonExecution rfl rfl).2.2.1
  · exact (C3_extract_answer_amended "Expecting value: line 1 column 1 (char 0)"
      sampleTimeoutExecution sampleBadJsonExecution rfl rfl).2.2.2

/-- C8, counterexample.  The claim asserts the hierarchy builder is total
and yields the empty list on a trace that cannot be parsed; on the concrete
execution whose stored trace `json.loads` rejects, `extract_tool_hierarchy`
instead raises `ValueError`. -/
theorem C8_counterexample :
    Executor.extract_tool_hierarchy sampleBadJsonExecution =
      Except.error ("Failed to parse messages JSON: " ++
        "Expecting value: line 1 column 1 (char 0)") := rfl

/-- C8 helper: with no `tool_call`-role message the first scan collects
nothing. -/
theorem foldl_toolCallStep_const (messages : List JsonVal)
    (h : ∀ msg ∈ messages,
      JsonVal.getD msg "role" (JsonVal.str "") ≠ JsonVal.str "tool_call") :
    ∀ acc, messages.foldl Executor.toolCallStep acc = acc := by
  induction messages with
  | nil => intro acc; rfl
  | cons m rest ih =>
    intro acc
    have hm := h m (List.mem_cons_self m rest)
    have hstep : Executor.toolCallStep acc m = acc := by
      unfold Executor.toolCallStep
      by_cases ho : m.isObj = true
      · rw [if_pos ho, if_neg hm]
      · rw [if_neg ho]
    rw [List.foldl_cons, hstep]
    exact ih (fun x hx => h x (List.mem_cons_of_mem m hx)) acc

/-- C8 (amended): `extract_tool_hierarchy` yields the empty list on an
absent trace, on a decoded document that is not a list (e.g. the
failed-path error dict), and on a well-formed message list containing zero
tool invocations; but on a trace that `json.loads` rejects it raises
`ValueError` instead of returning the empty list. -/
theorem C8_extract_tool_hierarchy_amended (execution : AgentExecution)
    (err : String) (j : JsonVal) (messages : List JsonVal) :
    (execution.all_messages_json = TraceInput.absent →
      Executor.extract_tool_hierarchy execution = Except.ok []) ∧
    (execution.all_messages_json = TraceInput.unparseable err →
      Executor.extract_tool_hierarchy execution =
        Except.error ("Failed to parse messages JSON: " ++ err)) ∧
    (execution.all_messages_json = TraceInput.parsed j → j.isArr = false →
      Executor.extract_tool_hierarchy execution = Except.ok []) ∧
    (execution.all_messages_json = TraceInput.parsed (JsonVal.arr messages) →
      (∀ msg ∈ messages,
        JsonVal.getD msg "role" (JsonVal.str "") ≠ JsonVal.str "tool_call") →
      Executor.extract_tool_hierarchy execution = Except.ok []) := by
  refine ⟨fun h => ?_, fun h => ?_, fun h hj => ?_, fun h hn => ?_⟩
  · simp [Executor.extract_tool_hierarchy, h]
  · simp [Executor.extract_tool_hierarchy, h]
  · cases j <;> simp_all [Executor.extract_tool_hierarchy, JsonVal.isArr]
  · have hcalls : Executor.collectToolCalls messages = [] :=
      foldl_toolCallStep_const messages hn []
    simp [Executor.extract_tool_hierarchy, h, hcalls]

/-- C8 witness: the absent-trace, error-dict and no-tool-call executions
yield `[]`, and the undecodable one raises. -/
theorem C8_extract_tool_hierarchy_amended_witness :
    Executor.extract_tool_hierarchy sampleTimeoutExecution = Except.ok [] ∧
    Executor.extract_tool_hierarchy sampleBadJsonExecution =
      Except.error ("Failed to parse messages JSON: " ++
        "Expecting value: line 1 column 1 (char 0)") ∧
    Executor.extract_tool_hierarchy sampleErrorDictExecution = Except.ok [] ∧
    Executor.extract_tool_hierarchy sampleNoToolsExecution = Except.ok [] := by
  refine ⟨?_, ?_, ?_, ?_⟩
  · exact (C8_extract_tool_hierarchy_amended sampleTimeoutExecution "x"
      JsonVal.null []).1 rfl
  · exact (C8_extract_tool_hierarchy_amended sampleBadJsonExecution
      "Expecting value: line 1 column 1 (char 0)" JsonVal.null []).2.1 rfl
  · exact (C8_extract_tool_hierarchy_amended sampleErrorDictExecution "x"
      (JsonVal.obj [("error", JsonVal.str "boom")]) []).2.2.1 rfl rfl
  · exact (C8_extract_tool_hierarchy_amended sampleNoToolsExecution "x" JsonVal.null
      [JsonVal.obj [("role", JsonVal.str "user"), ("content", JsonVal.str "Hello")],
       JsonVal.obj [("role", JsonVal.str "assistant"),
         ("content", JsonVal.str "Hi there!")]]).2.2.2 rfl (by decide)

/-- C5: score extraction first searches for the case-insensitive
`Score: <integer>` marker: a marker value within `[0, 100]` is returned, a
marker value above the range is a hard failure that is never clamped to any
score; only with no marker anywhere does the first standalone in-range
integer win; and with no in-range candidate at all the extraction fails
with an error carrying the first 100 characters of the response.  (Values
below the range cannot be matched: `\d+` has no sign.) -/
theorem C5_extract_score (text : String) :
    (∀ v, scoreMarkerSearch text.toList = some v →
      (v ≤ 100 → extract_score text = Except.ok v) ∧
      (100 < v →
        extract_score text =
          Except.error ("Score " ++ toString v ++ " is out of range (0-100)") ∧
        ∀ w, extract_score text ≠ Except.ok w)) ∧
    (scoreMarkerSearch text.toList = none →
      (∀ n, (scanNums none text.toList).find? (fun m => m ≤ 100) = some n →
        extract_score text = Except.ok n) ∧
      ((scanNums none text.toList).find? (fun m => m ≤ 100) = none →
        extract_score text =
          Except.error ("Could not extract valid score from text: " ++
            text.take 100))) := by
  constructor
  · intro v hv
    constructor
    · intro hle
      simp only [extract_score, hv]
      rw [if_pos hle]
    · intro hgt
      have hnle : ¬ (v ≤ 100) := not_le.mpr hgt
      refine ⟨?_, ?_⟩
      · simp only [extract_score, hv]
        rw [if_neg hnle]
      · intro w
        simp only [extract_score, hv]
        rw [if_neg hnle]
        intro hh
        cases hh
  · intro h0
    constructor
    · intro n hn
      simp only [extract_score, h0, hn]
    · intro hn
      simp only [extract_score, h0, hn]

/-- C5 witness: a marked in-range response, a marked out-of-range response
(hard failure), a marker-free response resolved by the standalone fallback,
and a response with no candidate at all. -/
theorem C5_extract_score_witness :
    extract_score "Score: 95\nExplanation: Great." = Except.ok 95 ∧
    (extract_score "Score: 150\nExplanation: Too good." =
        Except.error ("Score " ++ toString 150 ++ " is out of range (0-100)") ∧
      ∀ w, extract_score "Score: 150\nExplanation: Too good." ≠ Except.ok w) ∧
    extract_score "I would rate this 42 out of 100." = Except.ok 42 ∧
    extract_score "no score here" =
      Except.error ("Could not extract valid score from text: " ++
        "no score here".take 100) := by
  refine ⟨?_, ?_, ?_, ?_⟩
  · exact ((C5_extract_score "Score: 95\nExplanation: Great.").1 95
      (by decide)).1 (by decide)
  · exact ((C5_extract_score "Score: 150\nExplanation: Too good.").1 150
      (by decide)).2 (by decide)
  · exact ((C5_extract_score "I would rate this 42 out of 100.").2
      (by decide)).1 42 (by decide)
  · exact ((C5_extract_score "no score here").2 (by decide)).2 (by decide)

/-- C9 helper: `String.toList` distributes over append. -/
theorem toList_append' (a b : String) : (a ++ b).toList = a.toList ++ b.toList :=
  String.data_append a b

/-- C9 helper: a character of any joined item is a character of the join. -/
theorem mem_chars_pyJoinWith (l : List String) (x : String) (hx : x ∈ l)
    (c : Char) (hc : c ∈ x.toList) : c ∈ (pyJoinWith " " l).toList := by
  induction l with
  | nil => cases hx
  | cons a rest ih =>
    cases rest with
    | nil =>
      have hxa : x = a := by simpa using hx
      subst hxa
      simpa [pyJoinWith] using hc
    | cons b rest2 =>
      rcases List.mem_cons.mp hx with hxa | hx2
      · subst hxa
        simp only [pyJoinWith, toList_append']
        exact List.mem_append_left _ (List.mem_append_left _ hc)
      · have := ih hx2
        simp only [pyJoinWith, toList_append']
        exact List.mem_append_right _ this

/-- C9 helper: an element on which the predicate fails survives
`dropWhile`. -/
theorem mem_dropWhile_of_neg {α : Type} (p : α → Bool) (l : List α) (x : α)
    (hx : x ∈ l) (hpx : p x = false) : x ∈ l.dropWhile p := by
  induction l with
  | nil => cases hx
  | cons a t ih =>
    by_cases ha : p a = true
    · rw [List.dropWhile_cons_of_pos ha]
      rcases List.mem_cons.mp hx with hxa | hxt
      · subst hxa
        rw [ha] at hpx
        cases hpx
      · exact ih hxt
    · rw [List.dropWhile_cons_of_neg ha]
      exact hx

/-- C9 helper: a string containing a non-whitespace character does not
strip to the empty string. -/
theorem pyStrip_ne_empty_of_mem (s : String) (c : Char) (hc : c ∈ s.toList)
    (hns : isPySpace c = false) : pyStrip s ≠ "" := by
  intro h
  have hl : ((s.toList.dropWhile isPySpace).reverse.dropWhile isPySpace).reverse
      = [] := by
    have h2 := congrArg String.toList h
    simpa [pyStrip] using h2
  rw [List.reverse_eq_nil_iff, List.dropWhile_eq_nil_iff] at hl
  have hcm : c ∈ s.toList.dropWhile isPySpace :=
    mem_dropWhile_of_neg isPySpace s.toList c hc hns
  have := hl c (List.mem_reverse.mpr hcm)
  rw [hns] at this
  cases this

/-- C9 helper: when the trace contains a tool invocation, the fallback item
list contains the corresponding `Called <tool_name>` entry. -/
theorem called_mem_toolInfo (messages : List JsonVal)
    (h : Evaluator.hasToolCall messages = true) :
    ∃ s, ("Called " ++ s) ∈ Evaluator.toolInfo messages := by
  unfold Evaluator.hasToolCall at h
  rw [List.any_eq_true] at h
  obtain ⟨m, hm, hpred⟩ := h
  rw [Bool.and_eq_true] at hpred
  obtain ⟨hobj, hmatch⟩ := hpred
  cases hparts : m.getD "parts" (JsonVal.arr []) with
  | arr parts =>
    rw [hparts] at hmatch
    rw [List.any_eq_true] at hmatch
    obtain ⟨p, hp, hppred⟩ := hmatch
    rw [Bool.and_eq_true] at hppred
    obtain ⟨hpobj, hpkind⟩ := hppred
    rw [decide_eq_true_eq] at hpkind
    refine ⟨(p.getD "tool_name" (JsonVal.str "unknown tool")).pyStr, ?_⟩
    unfold Evaluator.toolInfo
    rw [List.mem_flatMap]
    refine ⟨m, hm, ?_⟩
    rw [if_pos hobj, hparts]
    rw [List.mem_flatMap]
    refine ⟨p, hp, ?_⟩
    rw [if_pos hpobj, if_pos hpkind]
    exact List.mem_singleton.mpr rfl
  | null => rw [hparts] at hmatch; cases hmatch
  | bool b => rw [hparts] at hmatch; cases hmatch
  | num n => rw [hparts] at hmatch; cases hmatch
  | str s => rw [hparts] at hmatch; cases hmatch
  | obj entries => rw [hparts] at hmatch; cases hmatch

/-- C9: on a parseable trace where the response-side pass collects nothing
usable (its join is a string that strips to empty) but at least one tool
invocation exists, the shared `extract_agent_response` returns the
space-joined fallback — `Called <tool_name>` for each tool call and
`Result: <content>` for each tool result with truthy content, in document
order — and that synthesized answer is non-empty. -/
theorem C9_tool_fallback (messages : List JsonVal) (joined : String)
    (h1 : Evaluator.pyJoinSpace (Evaluator.responseParts messages) =
      Except.ok joined)
    (h2 : pyStrip joined = "")
    (h3 : Evaluator.hasToolCall messages = true) :
    Evaluator.extract_agent_response (TraceInput.parsed (JsonVal.arr messages)) =
      Except.ok (pyStrip (pyJoinWith " " (Evaluator.toolInfo messages))) ∧
    pyStrip (pyJoinWith " " (Evaluator.toolInfo messages)) ≠ "" := by
  have hmsgs_ne : messages ≠ [] := by
    intro hnil
    subst hnil
    simp [Evaluator.hasToolCall] at h3
  obtain ⟨s, hs⟩ := called_mem_toolInfo messages h3
  have htool_ne : Evaluator.toolInfo messages ≠ [] := by
    intro hnil
    rw [hnil] at hs
    cases hs
  have hne : pyStrip (pyJoinWith " " (Evaluator.toolInfo messages)) ≠ "" := by
    apply pyStrip_ne_empty_of_mem _ 'C'
    · apply mem_chars_pyJoinWith _ _ hs
      rw [toList_append']
      exact List.mem_append_left _ (by decide)
    · decide
  constructor
  · simp only [Evaluator.extract_agent_response, h1]
    rw [if_pos ⟨h2, hmsgs_ne⟩, if_pos htool_ne]
  · exact hne

/-- C9 witness: the concrete tool-only trace synthesizes
`Called check_prime Result: 17 is prime`. -/
theorem C9_tool_fallback_witness :
    Evaluator.pyJoinSpace (Evaluator.responseParts sampleToolMessages) =
      Except.ok "" ∧
    Evaluator.hasToolCall sampleToolMessages = true ∧
    Evaluator.extract_agent_response
        (TraceInput.parsed (JsonVal.arr sampleToolMessages)) =
      Except.ok (pyStrip (pyJoinWith " " (Evaluator.toolInfo sampleToolMessages))) ∧
    pyStrip (pyJoinWith " " (Evaluator.toolInfo sampleToolMessages)) =
      "Called check_prime Result: 17 is prime" := by
  refine ⟨rfl, rfl, ?_, by decide⟩
  exact (C9_tool_fallback sampleToolMessages "" rfl rfl rfl).1

/-- C10: for an execution with a persisted id, a failure of the executor
answer extraction never fails `evaluate_execution`: the error is converted
into the substitute answer `Failed to extract response: <error>` and the
evaluation agent is still invoked on the prompt formatted from that
substitute, the call then proceeding exactly as the post-invocation
pipeline on the agent's messages. -/
theorem C10_substitute_answer (execution : AgentExecution) (i : Int)
    (prompt_template : String) (task_prompt : String)
    (run_eval_agent : String → List Executor.EvalMsg) (err : String)
    (hid : execution.id = some i)
    (hext : Executor.extract_agent_response execution = Except.error err)
    (h1 : containsSub phTaskPrompt prompt_template = true)
    (h2 : containsSub phAgentResponse prompt_template = true) :
    Executor.evaluate_execution execution prompt_template task_prompt
        run_eval_agent =
      Executor.evaluate_from_response
        (run_eval_agent ((prompt_template.replace phTaskPrompt task_prompt).replace
          phAgentResponse ("Failed to extract response: " ++ err))) i := by
  simp only [Executor.evaluate_execution, hid, hext, format_evaluation_prompt,
    h1, h2, Bool.not_true, Bool.false_eq_true, if_false]

/-- C10 witness: the concrete timed-out execution (whose extraction
raises), a valid template and a stub evaluation agent; the call succeeds
end to end. -/
theorem C10_substitute_answer_witness :
    sampleTimeoutExecution.id = some 7 ∧
    Executor.extract_agent_response sampleTimeoutExecution =
      Except.error "Execution has no messages (possibly timed out)" ∧
    Executor.evaluate_execution sampleTimeoutExecution sampleTemplate
        "Check whether 17 is prime." sampleEvalAgent =
      Executor.evaluate_from_response
        (sampleEvalAgent ((sampleTemplate.replace phTaskPrompt
          "Check whether 17 is prime.").replace phAgentResponse
          ("Failed to extract response: " ++
            "Execution has no messages (possibly timed out)"))) 7 ∧
    Executor.evaluate_execution sampleTimeoutExecution sampleTemplate
        "Check whether 17 is prime." sampleEvalAgent =
      Except.ok { execution_id := 7, score := 80, explanation := "reasonable" } := by
  refine ⟨rfl, rfl, ?_, by decide⟩
  exact C10_substitute_answer sampleTimeoutExecution 7 sampleTemplate
    "Check whether 17 is prime." sampleEvalAgent
    "Execution has no messages (possibly timed out)" rfl rfl (by decide) (by decide)

/-- C4 helper: a materialized node carries its dict key as `call_id`. -/
theorem buildNode_call_id (calls : List (JsonVal × Executor.CallInfo))
    (responses : List (JsonVal × JsonVal)) (fuel : Nat)
    (e : JsonVal × Executor.CallInfo) :
    (Executor.buildNode calls responses fuel e).call_id = e.1 := by
  cases fuel <;> rfl

/-- C4 helper: a key of the updated dict is an old key or the set key. -/
theorem mem_dictSet_keys {α : Type} (d : List (JsonVal × α)) (k : JsonVal)
    (v : α) (x : JsonVal)
    (hx : x ∈ (Executor.dictSet d k v).map (fun e => e.1)) :
    x ∈ d.map (fun e => e.1) ∨ x = k := by
  induction d with
  | nil =>
    simp only [Executor.dictSet, List.map_cons, List.map_nil,
      List.mem_singleton] at hx
    exact Or.inr hx
  | cons e0 rest ih =>
    by_cases h : e0.1 = k
    · simp only [Executor.dictSet, if_pos h] at hx
      simp only [List.map_cons, List.mem_cons] at hx
      rcases hx with hx | hx
      · exact Or.inl (by simp [hx])
      · exact Or.inl (by simp [hx])
    · simp only [Executor.dictSet, if_neg h] at hx
      simp only [List.map_cons, List.mem_cons] at hx
      rcases hx with hx | hx
      · exact Or.inl (by simp [hx])
      · rcases ih hx with hh | hh
        · exact Or.inl (by simp [hh])
        · exact Or.inr hh

/-- C4 helper: `dictSet` preserves distinctness of the dict keys. -/
theorem dictSet_keys_nodup {α : Type} (d : List (JsonVal × α)) (k : JsonVal)
    (v : α) (h : (d.map (fun e => e.1)).Nodup) :
    ((Executor.dictSet d k v).map (fun e => e.1)).Nodup := by
  induction d with
  | nil => simp [Executor.dictSet]
  | cons e0 rest ih =>
    simp only [List.map_cons, List.nodup_cons] at h
    by_cases hk : e0.1 = k
    · simp only [Executor.dictSet, if_pos hk, List.map_cons, List.nodup_cons]
      exact ⟨by simpa [hk] using h.1, h.2⟩
    · simp only [Executor.dictSet, if_neg hk, List.map_cons, List.nodup_cons]
      refine ⟨?_, ih h.2⟩
      intro hmem
      rcases mem_dictSet_keys rest k v e0.1 hmem with hh | hh
      · exact h.1 hh
      · exact hk hh

/-- C4 helper: the `tool_calls` dict built by the first scan has distinct
keys. -/
theorem foldl_toolCallStep_nodup (messages : List JsonVal) :
    ∀ acc : List (JsonVal × Executor.CallInfo),
      (acc.map (fun e => e.1)).Nodup →
      ((messages.foldl Executor.toolCallStep acc).map (fun e => e.1)).Nodup := by
  induction messages with
  | nil => intro acc h; exact h
  | cons m rest ih =>
    intro acc h
    rw [List.foldl_cons]
    apply ih
    simp only [Executor.toolCallStep]
    split_ifs <;> first
      | exact h
      | exact dictSet_keys_nodup acc _ _ h

theorem collectToolCalls_keys_nodup (messages : List JsonVal) :
    ((Executor.collectToolCalls messages).map (fun e => e.1)).Nodup :=
  foldl_toolCallStep_nodup messages [] (by simp)

/-- C4 helper: membership in the ids of a forest. -/
theorem mem_forestIds (ns : List Executor.ToolCallNode) (x : JsonVal) :
    x ∈ Executor.ToolCallNode.forestIds ns ↔ ∃ n ∈ ns, x ∈ n.allIds := by
  induction ns with
  | nil => simp [Executor.ToolCallNode.forestIds]
  | cons n rest ih =>
    simp only [Executor.ToolCallNode.forestIds, List.mem_append, ih,
      List.mem_cons]
    constructor
    · rintro (hx | ⟨n2, hn2, hx⟩)
      · exact ⟨n, Or.inl rfl, hx⟩
      · exact ⟨n2, Or.inr hn2, hx⟩
    · rintro ⟨n2, hn2 | hn2, hx⟩
      · subst hn2; exact Or.inl hx
      · exact Or.inr ⟨n2, hn2, hx⟩

/-- C4 helper: an extracted call whose truthy `parent_id` matches no dict
key never appears among the ids of a tree built from a different entry. -/
theorem dangling_not_in_buildNode (calls : List (JsonVal × Executor.CallInfo))
    (responses : List (JsonVal × JsonVal))
    (hnd : (calls.map (fun e => e.1)).Nodup)
    (en : JsonVal × Executor.CallInfo) (hen : en ∈ calls)
    (hdang : ∀ en2 ∈ calls, en.2.parent_id ≠ en2.1) :
    ∀ fuel (e : JsonVal × Executor.CallInfo), e ∈ calls → e.1 ≠ en.1 →
      en.1 ∉ (Executor.buildNode calls responses fuel e).allIds := by
  intro fuel
  induction fuel with
  | zero =>
    intro e he hne hmem
    simp only [Executor.buildNode, Executor.ToolCallNode.allIds,
      Executor.ToolCallNode.forestIds, List.mem_singleton] at hmem
    exact hne hmem.symm
  | succ fuel ih =>
    intro e he hne hmem
    simp only [Executor.buildNode, Executor.ToolCallNode.allIds,
      List.mem_cons] at hmem
    rcases hmem with hmem | hmem
    · exact hne hmem.symm
    · rw [mem_forestIds] at hmem
      obtain ⟨n, hn, hid⟩ := hmem
      rw [List.mem_map] at hn
      obtain ⟨q, hq, rfl⟩ := hn
      have hqf := List.mem_filter.mp hq
      have hqcalls : q ∈ calls := hqf.1
      have hqcond := hqf.2
      rw [Bool.and_eq_true, decide_eq_true_eq] at hqcond
      have hqne : q.1 ≠ en.1 := by
        intro heq
        have hqen : q = en :=
          List.inj_on_of_nodup_map hnd hqcalls hen heq
        rw [hqen] at hqcond
        exact hdang e he hqcond.2
      exact ih q hqcalls hqne hid

/-- C4, counterexample.  The claim asserts that a tool call whose declared
`parent_id` matches no known `call_id` appears in the returned root list.
On the concrete trace holding exactly one such call (`call_id = "c2"`,
declared parent `"c1"`, which matches no extracted call), the returned root
list is empty: the call is neither promoted to root nor attached anywhere —
it is dropped. -/
theorem C4_counterexample :
    (Executor.collectToolCalls danglingMessages).map (fun e => e.1)
      = [JsonVal.str "c2"] ∧
    (∀ en2 ∈ Executor.collectToolCalls danglingMessages,
      JsonVal.str "c1" ≠ en2.1) ∧
    Executor.extract_tool_hierarchy danglingExecution = Except.ok [] := by
  refine ⟨rfl, ?_, rfl⟩
  decide

/-- C4 (amended): a node appears in the root list exactly when its stored
`parent_id` is falsy (absent, null, or otherwise falsy) — the root list is
the dict-ordered list of such calls — while a call whose truthy `parent_id`
matches no known `call_id` appears nowhere in the returned forest: it is
dropped, not promoted to root and not an error. -/
theorem C4_hierarchy_roots_amended (execution : AgentExecution)
    (messages : List JsonVal)
    (hmsg : execution.all_messages_json = TraceInput.parsed (JsonVal.arr messages))
    (roots : List Executor.ToolCallNode)
    (hr : Executor.extract_tool_hierarchy execution = Except.ok roots) :
    roots.map Executor.ToolCallNode.call_id =
      ((Executor.collectToolCalls messages).filter
        (fun en => !en.2.parent_id.truthy)).map (fun en => en.1) ∧
    ∀ en ∈ Executor.collectToolCalls messages,
      en.2.parent_id.truthy = true →
      (∀ en2 ∈ Executor.collectToolCalls messages, en.2.parent_id ≠ en2.1) →
      en.1 ∉ Executor.ToolCallNode.forestIds roots := by
  have hroots : roots = ((Executor.collectToolCalls messages).filter
      (fun en => !en.2.parent_id.truthy)).map
      (Executor.buildNode (Executor.collectToolCalls messages)
        (Executor.collectToolResponses messages)
        (Executor.collectToolCalls messages).length) := by
    simp only [Executor.extract_tool_hierarchy, hmsg] at hr
    exact (Except.ok.inj hr).symm
  subst hroots
  constructor
  · rw [List.map_map]
    apply List.map_congr_left
    intro e _
    exact buildNode_call_id _ _ _ e
  · intro en hen hpt hdang
    rw [mem_forestIds]
    rintro ⟨n, hn, hid⟩
    rw [List.mem_map] at hn
    obtain ⟨e, he, rfl⟩ := hn
    have hef := List.mem_filter.mp he
    have hne : e.1 ≠ en.1 := by
      intro heq
      have heen : e = en :=
        List.inj_on_of_nodup_map (collectToolCalls_keys_nodup messages)
          hef.1 hen heq
      rw [heen] at hef
      rw [hpt] at hef
      simpa using hef.2
    exact dangling_not_in_buildNode (Executor.collectToolCalls messages)
      (Executor.collectToolResponses messages)
      (collectToolCalls_keys_nodup messages) en hen hdang _ e hef.1 hne hid

/-- C4 witness: the amended statement applied to the concrete
dangling-parent trace. -/
theorem C4_hierarchy_roots_amended_witness :
    danglingExecution.all_messages_json =
      TraceInput.parsed (JsonVal.arr danglingMessages) ∧
    Executor.extract_tool_hierarchy danglingExecution = Except.ok [] ∧
    (List.map Executor.ToolCallNode.call_id [] =
      ((Executor.collectToolCalls danglingMessages).filter
        (fun en => !en.2.parent_id.truthy)).map (fun en => en.1) ∧
    ∀ en ∈ Executor.collectToolCalls danglingMessages,
      en.2.parent_id.truthy = true →
      (∀ en2 ∈ Executor.collectToolCalls danglingMessages, en.2.parent_id ≠ en2.1) →
      en.1 ∉ Executor.ToolCallNode.forestIds []) := by
  refine ⟨rfl, rfl, ?_⟩
  exact C4_hierarchy_roots_amended danglingExecution danglingMessages rfl [] rfl
